import Mathlib

/-!
# VidMod verification development

A shallow embedding of the VidMod video compliance-editing pipeline, together
with proofs about it.  Times, durations and frame rates are modelled as exact
rationals (`ℚ`); file paths as directory/name pairs of strings; the file
system as the list of existing paths; external services (segmentation,
generative video, TTS, the media tool) as oracles whose outcomes parametrise
the functions that call them.

Each section embeds one part of the source:
* `AudioAnalyzer`    — `core/audio_analyzer.py` (`ProfanityMatch`,
  `_merge_adjacent_matches`)
* `BeepProcessor`    — `core/audio_beep_processor.py` (`apply_beeps`)
* `Chunking`         — `core/pipeline.py` (`process_runway_with_chunking`)
  and `core/frame_extractor.py` (`extract_clip` clamping)
* `Builder`          — `core/video_builder.py` (`normalize_video_fps`,
  `insert_segment`)
* `Pipeline`         — `core/pipeline.py` (`JobState`, failure handling of
  `segment_video_with_sam3` / `replace_object`, `_save_job_state`,
  `_restore_job_state`)
* `Routers`          — `app/routers/video.py` (`blur_object` source selection
  and mask cache, `censor_audio`)
* `Dubber`           — `core/elevenlabs_dubber.py` (`cluster_matches`,
  `apply_dubs_with_clone`, voice-clone cleanup)

Definitions come first, then the theorems about them.
-/

namespace VidMod

/-! ## Paths

A file path is modelled as a parent directory plus a file name, mirroring how
the code manipulates `pathlib.Path` values (`.parent`, `.name`, `dir / name`).
The file system is the list of paths that currently exist on disk. -/

structure PathS where
  dir : String
  name : String
deriving DecidableEq, Repr

/-- Rendering of a path to the string the code serialises (`str(path)`). -/
def PathS.render (p : PathS) : String := p.dir ++ "/" ++ p.name

/-- Existence check (`path.exists()`) against a file system given as the list
of existing paths. -/
def PathS.existsIn (p : PathS) (fs : List PathS) : Bool := fs.contains p

/-- Python truncation `int(x)` (toward zero). -/
def pyInt (q : ℚ) : ℤ := if 0 ≤ q then ⌊q⌋ else -⌊-q⌋

namespace AudioAnalyzer

/-! ## Embedding of `core/audio_analyzer.py` -/

/-- The `ProfanityMatch` dataclass.  Note that the dataclass declares *no*
`speaker_id` field; this matters for the dubbing code (`Dubber` section). -/
structure ProfanityMatch where
  word : String
  start_time : ℚ
  end_time : ℚ
  replacement : String
  confidence : String := "high"
  context : String := ""
deriving DecidableEq, Repr

/-- Stable sort by start time (`sorted(matches, key=lambda m: m.start_time)`),
realised as insertion sort: an element is inserted before later-inserted
elements with an equal key, which is exactly the stability of the sort that
the code relies on. -/
def insertByStart (m : ProfanityMatch) : List ProfanityMatch → List ProfanityMatch
  | [] => [m]
  | n :: ns =>
      if m.start_time ≤ n.start_time then m :: n :: ns else n :: insertByStart m ns

def sortByStart : List ProfanityMatch → List ProfanityMatch
  | [] => []
  | m :: ms => insertByStart m (sortByStart ms)

/-- The merge of `current` with `next_match` performed inside
`_merge_adjacent_matches`: words and replacements are concatenated, the start
is taken from `current` and the end from `next_match` (not the maximum of the
two ends). -/
def mergeTwo (current next : ProfanityMatch) : ProfanityMatch :=
  { word := current.word ++ " " ++ next.word
    start_time := current.start_time
    end_time := next.end_time
    replacement := current.replacement ++ " " ++ next.replacement
    confidence := current.confidence
    context := current.context }

/-- The fold over `sorted_matches[1:]` in `_merge_adjacent_matches`: merge
`next` into `current` when `next.start_time - current.end_time` is at most the
threshold, else emit `current` and continue from `next`. -/
def mergeLoop (threshold : ℚ) : ProfanityMatch → List ProfanityMatch → List ProfanityMatch
  | current, [] => [current]
  | current, next :: rest =>
      if next.start_time - current.end_time ≤ threshold then
        mergeLoop threshold (mergeTwo current next) rest
      else
        current :: mergeLoop threshold next rest

/-- Embedding of `AudioAnalyzer._merge_adjacent_matches(matches,
merge_threshold=0.5)`. -/
def merge_adjacent_matches (ms : List ProfanityMatch) (threshold : ℚ := 1/2) :
    List ProfanityMatch :=
  if ms.length ≤ 1 then ms
  else
    match sortByStart ms with
    | [] => []
    | m :: rest => mergeLoop threshold m rest

/-- A list contains a mergeable adjacent pair: some consecutive pair has
`next.start_time - current.end_time ≤ threshold`. -/
def hasMergeablePair (threshold : ℚ) : List ProfanityMatch → Prop
  | [] => False
  | [_] => False
  | a :: b :: rest =>
      b.start_time - a.end_time ≤ threshold ∨ hasMergeablePair threshold (b :: rest)

def hasMergeablePairDec (threshold : ℚ) : ∀ l, Decidable (hasMergeablePair threshold l)
  | [] => isFalse id
  | [_] => isFalse id
  | _ :: b :: rest =>
      have := hasMergeablePairDec threshold (b :: rest)
      inferInstanceAs (Decidable (_ ∨ _))

instance (threshold : ℚ) (l : List ProfanityMatch) :
    Decidable (hasMergeablePair threshold l) :=
  hasMergeablePairDec threshold l

end AudioAnalyzer

namespace BeepProcessor

/-! ## Embedding of `core/audio_beep_processor.py` (`apply_beeps`)

The filter graph built by `apply_beeps` is embedded by its semantics: the
list of mute windows that the `volume=enable=...` filter silences, and the
list of generated beeps (duration of the sine tone, `adelay` in
milliseconds). -/

open AudioAnalyzer (ProfanityMatch)

/-- The mute windows of the volume filter: one `between(t,start,end)`
condition per match, with the match's raw timestamps (no padding is added in
the code). -/
def mute_windows (ms : List ProfanityMatch) : List (ℚ × ℚ) :=
  ms.map fun m => (m.start_time, m.end_time)

/-- Semantics of ffmpeg `between(t,s,e)`: inclusive on both ends.  The base
audio is muted at `t` when some window's condition holds. -/
def mutedAt (ws : List (ℚ × ℚ)) (t : ℚ) : Bool :=
  ws.any fun w => decide (w.1 ≤ t) && decide (t ≤ w.2)

/-- The beeps generated by `apply_beeps`: for each match one sine tone of
duration `end_time - start_time` (the `generate_beep` call), delayed by
`int(start_time * 1000)` milliseconds (the `adelay` filter). -/
def beep_plan (ms : List ProfanityMatch) : List (ℚ × ℤ) :=
  ms.map fun m => (m.end_time - m.start_time, pyInt (m.start_time * 1000))

/-- Semantics of one overlaid beep `(duration, delayMs)`: after `adelay` the
tone occupies the interval from `delayMs / 1000` to `delayMs / 1000 +
duration` seconds. -/
def beepWindow (b : ℚ × ℤ) : ℚ × ℚ :=
  ((b.2 : ℚ) / 1000, (b.2 : ℚ) / 1000 + b.1)

end BeepProcessor

namespace Chunking

/-! ## Embedding of `VideoPipeline.process_runway_with_chunking` -/

structure Chunk where
  start : ℚ
  duration : ℚ
deriving DecidableEq, Repr

/-- One iteration of the chunk-creation loop: `chunk_len = min(5.0,
remaining)`; fuel bounds the recursion (the loop runs at most
`⌈total⌉` times because every chunk but the last is 5 s long). -/
def makeChunksAux : ℕ → ℚ → ℚ → List Chunk
  | 0, _, _ => []
  | fuel + 1, current, total =>
      if current < total then
        let len := min 5 (total - current)
        ⟨current, len⟩ :: makeChunksAux fuel (current + len) total
      else []

/-- The chunk list built by the `while current_time < total_duration` loop. -/
def makeChunks (total : ℚ) : List Chunk :=
  makeChunksAux (⌈total⌉.toNat + 1) 0 total

/-- Whether `process_runway_with_chunking` chunks at all: only durations
strictly greater than 10 s enter the chunking branch. -/
def uses_chunking (total : ℚ) : Bool := decide (10 < total)

/-- Duration semantics of `FrameExtractor.extract_clip(video, 0, end, 0)`
used for trimming: the buffered end is clamped to the video duration, so the
clip lasts `min(videoDuration, end)`. -/
def extract_clip_duration (videoDuration startT endT buffer : ℚ) : ℚ :=
  min videoDuration (endT + buffer) - max 0 (startT - buffer)

/-- The duration of chunk `c`'s processed result after the conditional trim:
the request length is hard-coded to `req_seconds = 5`; the output is trimmed
back to the chunk duration (via `extract_clip(0, duration)`) only when
`abs(req_seconds - duration) > 0.1`, otherwise it is passed through with
whatever duration the backend produced. -/
def trimmed_chunk_duration (backendDur : ℚ) (c : Chunk) : ℚ :=
  if |(5 : ℚ) - c.duration| > 1/10 then
    extract_clip_duration backendDur 0 c.duration 0
  else backendDur

/-- Consecutiveness of a chunk list: each chunk starts where the previous one
ends. -/
def consecutive : List Chunk → Prop
  | [] => True
  | [_] => True
  | a :: b :: rest => (b.start = a.start + a.duration) ∧ consecutive (b :: rest)

def consecutiveDec : ∀ l, Decidable (consecutive l)
  | [] => isTrue trivial
  | [_] => isTrue trivial
  | _ :: b :: rest =>
      have := consecutiveDec (b :: rest)
      inferInstanceAs (Decidable (_ ∧ _))

instance (l : List Chunk) : Decidable (consecutive l) := consecutiveDec l

/-- Sum of the chunk durations. -/
def totalDuration (l : List Chunk) : ℚ := (l.map Chunk.duration).sum

end Chunking

namespace Builder

/-! ## Embedding of `core/video_builder.py` (fps handling)

A video is modelled by its frame rate; stream copies (`-c copy`) preserve it,
a re-encode with the `fps=` filter replaces it. -/

structure Video where
  fps : ℚ
deriving DecidableEq, Repr

/-- Reading the frame rate (`VideoBuilder.get_video_fps`, ffprobe
`r_frame_rate`). -/
def get_video_fps (v : Video) : ℚ := v.fps

/-- Embedding of `VideoBuilder.normalize_video_fps`: when the current fps is
within 0.5 of the target (strictly, `abs(current_fps - target_fps) < 0.5`)
the file is copied unchanged; otherwise it is re-encoded with the
`-filter:v fps=target` filter, which makes the output run at exactly the
target rate. -/
def normalize_video_fps (input : Video) (targetFps : ℚ) : Video :=
  if |input.fps - targetFps| < 1/2 then input else { fps := targetFps }

/-- The concat list written by `VideoBuilder.insert_segment`: the before-clip
(a stream copy of the original, present only when `max(0, start - buffer) >
0`), then the fps-normalized processed segment, then the after-clip (a stream
copy of the original, present when ffmpeg produced a non-trivial file —
modelled by the `hasAfter` flag). -/
def insert_segment_parts (original processed : Video) (start_time buffer : ℚ)
    (hasAfter : Bool) : List Video :=
  let buffered_start := max 0 (start_time - buffer)
  let normalized := normalize_video_fps processed (get_video_fps original)
  (if buffered_start > 0 then [original] else []) ++ [normalized] ++
    (if hasAfter then [original] else [])

/-- Frame rate of a concat-demuxer output (`-f concat ... -c copy`): the
stream parameters are taken from the first listed file. -/
def concat_fps (parts : List Video) : ℚ :=
  match parts with
  | [] => 0
  | v :: _ => v.fps

/-- The fps of the stitched output of `insert_segment`. -/
def insert_segment_fps (original processed : Video) (start_time buffer : ℚ)
    (hasAfter : Bool) : ℚ :=
  concat_fps (insert_segment_parts original processed start_time buffer hasAfter)

end Builder

namespace Pipeline

/-! ## Embedding of `core/pipeline.py` (job state, failure policy,
persistence) -/

/-- The `PipelineStage` enum. -/
inductive Stage
  | initialized | extracting_frames | detecting_objects | generating_masks
  | video_segmenting | inpainting | reconstructing | completed | failed
deriving DecidableEq, Repr

/-- The `JobState` dataclass (the fields the claims touch; `video_info` is a
JSON object of numeric entries, carried verbatim through persistence). -/
structure JobState where
  job_id : String
  video_path : Option PathS := none
  frames_dir : Option PathS := none
  masks_dir : Option PathS := none
  inpainted_dir : Option PathS := none
  output_path : Option PathS := none
  audio_path : Option PathS := none
  video_info : List (String × ℚ) := []
  frame_paths : List PathS := []
  stage : Stage := .initialized
  progress : ℚ := 0
  error : Option String := none
  segmented_video_path : Option PathS := none
  gcs_url : Option String := none
deriving DecidableEq, Repr

/-- Job directory (`VideoPipeline._get_job_dir`):
`base_storage_dir / job_id`. -/
def get_job_dir (base job_id : String) : String := base ++ "/" ++ job_id

/-- Embedding of `segment_video_with_sam3`, parametrised by the outcome of
the SAM3 call (`Except.ok` carries the downloaded mask path).  On success the
mask path is recorded and the stage completes; on an exception the handler
sets `stage = FAILED` and `error` and re-raises, leaving `output_path`
untouched. -/
def segment_video_with_sam3_run (job : JobState) (outcome : Except String PathS) :
    JobState :=
  let job1 := { job with stage := .video_segmenting, progress := 10 }
  match outcome with
  | .ok maskPath =>
      { job1 with segmented_video_path := some maskPath
                  stage := .completed, progress := 100 }
  | .error e => { job1 with stage := .failed, error := some e }

/-- Embedding of `replace_object`, parametrised by the outcome of the
inpainting call (`Except.ok` carries the downloaded output path). -/
def replace_object_run (job : JobState) (outcome : Except String PathS) : JobState :=
  let job1 := { job with stage := .inpainting, progress := 10 }
  match outcome with
  | .ok outPath =>
      { job1 with output_path := some outPath, stage := .completed, progress := 100 }
  | .error e => { job1 with stage := .failed, error := some e }

/-- Embedding of `replace_with_vace`, parametrised by the outcome of the
VACE call (`Except.ok` carries the path `replace_and_download` returned).
On success the result is recorded and the stage completes; on an exception
the handler sets `stage = FAILED` and `error` and re-raises, leaving
`output_path` untouched. -/
def replace_with_vace_run (job : JobState) (outcome : Except String PathS) : JobState :=
  let job1 := { job with stage := .inpainting, progress := 10 }
  match outcome with
  | .ok resultPath =>
      { job1 with output_path := some resultPath, stage := .completed, progress := 100 }
  | .error e => { job1 with stage := .failed, error := some e }

/-- The persisted snapshot `_save_job_state` uploads to
`jobs/{id}/state.json`.  Path-valued fields are serialised with `str(...)`,
i.e. as full path strings. -/
structure SavedState where
  job_id : String
  video_path : Option String
  frames_dir : Option String
  stage : Stage
  progress : ℚ
  video_info : List (String × ℚ)
  gcs_url : Option String
  frame_paths : List String
  error : Option String
deriving DecidableEq, Repr

/-- Embedding of `VideoPipeline._save_job_state`. -/
def save_job_state (job : JobState) : SavedState :=
  { job_id := job.job_id
    video_path := job.video_path.map PathS.render
    frames_dir := job.frames_dir.map PathS.render
    stage := job.stage
    progress := job.progress
    video_info := job.video_info
    gcs_url := job.gcs_url
    frame_paths := job.frame_paths.map PathS.render
    error := job.error }

/-- The `Path(saved).name` computation the reader applies to every stored
path string: the longest suffix containing no separator. -/
def path_name (s : String) : String :=
  String.mk ((s.data.reverse.takeWhile (· ≠ '/')).reverse)

/-- Embedding of `VideoPipeline._restore_job_state`: the absolute paths in
the snapshot are ignored except for their final component, and every path is
reconstructed relative to the local job directory; `frames_dir`, `masks_dir`,
`inpainted_dir`, `output_path` and `audio_path` are reset to their standard
locations regardless of what was saved. -/
def restore_job_state (base job_id : String) (data : SavedState) : JobState :=
  let job_dir := get_job_dir base job_id
  { job_id := data.job_id
    video_path := data.video_path.map fun s => ⟨job_dir, path_name s⟩
    frames_dir := some ⟨job_dir, "frames"⟩
    masks_dir := some ⟨job_dir, "masks"⟩
    inpainted_dir := some ⟨job_dir, "inpainted"⟩
    output_path := some ⟨job_dir, "output.mp4"⟩
    audio_path := some ⟨job_dir, "audio.aac"⟩
    stage := data.stage
    progress := data.progress
    video_info := data.video_info
    gcs_url := data.gcs_url
    error := data.error
    frame_paths := data.frame_paths.map fun s => ⟨job_dir ++ "/frames", path_name s⟩ }

end Pipeline

namespace Routers

/-! ## Embedding of `app/routers/video.py` (`blur_object`, `censor_audio`) -/

open Pipeline (JobState Stage)

/-- The chained-source rule appearing three times inside `blur_object`
(clip extraction, stitching, legacy input): the previous output when that
file exists, else the job's original video. -/
def chain_source (fs : List PathS) (output_path : Option PathS)
    (video_path : PathS) : PathS :=
  match output_path with
  | some p => if p.existsIn fs then p else video_path
  | none => video_path

/-- Modelled from the spec: the smart-clip source-selection rule the spec
states for every edit operation — "source := job.output_path if exists else
job.source_video_path". -/
def spec_select_source (fs : List PathS) (job : JobState) : Option PathS :=
  job.video_path.map fun vp =>
    match job.output_path with
    | some p => if p.existsIn fs then p else vp
    | none => vp

/-- The source `blur_object` extracts its clip from (smart path) and
stitches into; the same rule is used for the legacy full-video input. -/
def blur_source (fs : List PathS) (job : JobState) : Option PathS :=
  job.video_path.map (chain_source fs job.output_path)

/-- The video `censor_audio` analyzes and censors: always `job.video_path`,
both for the analyzer and for `apply_beeps` / `apply_dubs`; the previous
`output_path` is never consulted. -/
def censor_audio_source (job : JobState) : Option PathS := job.video_path

/-- The 8-hex prompt hash (`hashlib.md5(prompt.lower().encode()).hexdigest()[:8]`).
The md5 hex digest itself is an external library routine and is abstracted by
the `md5hex` parameter; only the lowercasing and the 8-character truncation
are code of this repository. -/
def prompt_hash8 (md5hex : String → String) (prompt : String) : String :=
  (md5hex prompt.toLower).take 8

/-- The prompt slug:
`"".join(c if c.isalnum() else "_" for c in prompt.lower())[:20]`
(ASCII model of `str.lower` / `str.isalnum`). -/
def prompt_slug (prompt : String) : String :=
  String.mk (((prompt.toLower).data.map fun c => if c.isAlphanum then c else '_').take 20)

/-- The mask-cache file name: `mask_{slug}_{hash8}.mp4` for a full-video
mask, `mask_{slug}_{hash8}_clip.mp4` for a per-clip mask. -/
def mask_cache_filename (md5hex : String → String) (prompt : String)
    (isClip : Bool) : String :=
  "mask_" ++ prompt_slug prompt ++ "_" ++ prompt_hash8 md5hex prompt ++
    (if isClip then "_clip" else "") ++ ".mp4"

/-- Result of the mask-cache check inside `blur_object`. -/
structure CacheResult where
  fs : List PathS
  segmentation_calls : ℕ
  mask_path : PathS
deriving Repr

/-- The cache-or-segment step of `blur_object`: if the cache file exists the
SAM3 call is skipped entirely; otherwise one segmentation request is issued,
its result downloaded (to `mask_clip_{hash8}.mp4` on the smart path, to
`segmented_sam3.mp4` on the legacy path) and copied to the cache name. -/
def blur_mask_cache_step (md5hex : String → String) (fs : List PathS)
    (job_dir prompt : String) (isClip : Bool) : CacheResult :=
  let cached : PathS := ⟨job_dir, mask_cache_filename md5hex prompt isClip⟩
  if cached.existsIn fs then
    { fs := fs, segmentation_calls := 0, mask_path := cached }
  else
    let downloaded : PathS :=
      if isClip then ⟨job_dir, "mask_clip_" ++ prompt_hash8 md5hex prompt ++ ".mp4"⟩
      else ⟨job_dir, "segmented_sam3.mp4"⟩
    { fs := cached :: downloaded :: fs, segmentation_calls := 1, mask_path := cached }

/-- The output file name `blur_object` writes:
`output_{effect}_{hash8}_stitched.mp4` on the smart path,
`output_{effect}_{hash8}.mp4` on the legacy path. -/
def blur_output_name (effect_type prompt_hash : String) (smart : Bool) : String :=
  if smart then "output_" ++ effect_type ++ "_" ++ prompt_hash ++ "_stitched.mp4"
  else "output_" ++ effect_type ++ "_" ++ prompt_hash ++ ".mp4"

/-- Embedding of the smart-clip path of `blur_object`, parametrised by the
outcome of the clip/segment/effect/stitch work.  On success the job's
`output_path` is set to the stitched file (in `job_dir =
job.video_path.parent`); on any exception the handler only logs and raises
`HTTPException` — the job's `stage`, `error` and `output_path` are all left
untouched.  A job without a video is rejected up front (HTTP 400), also
unchanged. -/
def blur_object_smart_run (job : JobState) (effect_type prompt_hash : String)
    (outcome : Except String Unit) : JobState :=
  match job.video_path with
  | none => job
  | some vp =>
      match outcome with
      | .error _ => job
      | .ok _ =>
          let out : PathS := ⟨vp.dir, blur_output_name effect_type prompt_hash true⟩
          { job with output_path := some out }

/-- The output file name `censor_audio` writes for each mode. -/
def censor_output_name (mode : String) : String :=
  if mode == "beep" then "censored_beep.mp4" else "censored_dubbed.mp4"

/-- Embedding of `censor_audio`, parametrised by the outcome of the
analyze-and-censor work.  The job directory is
`storage/jobs/{job_id}`; on success `output_path` is set to the censored
file; on an exception only an `HTTPException` is raised — the job is left
untouched. -/
def censor_audio_run (job : JobState) (mode : String)
    (outcome : Except String Unit) : JobState :=
  match job.video_path with
  | none => job
  | some _ =>
      match outcome with
      | .error _ => job
      | .ok _ =>
          let out : PathS := ⟨"storage/jobs/" ++ job.job_id, censor_output_name mode⟩
          { job with output_path := some out }

end Routers

namespace Dubber

/-! ## Embedding of `core/elevenlabs_dubber.py` -/

/-- A runtime value passed to `cluster_matches`.  Python objects are
dynamically typed: the field `speaker_id?` records whether the object carries
a `speaker_id` attribute.  The analyzer's `ProfanityMatch` dataclass defines
no such field, so objects built from it have `speaker_id? = none` and reading
the attribute raises `AttributeError`; speaker-attributed match objects (as
`apply_dubs_multi_speaker` assumes) would have `speaker_id? = some _`. -/
structure PyMatch where
  word : String
  start_time : ℚ
  end_time : ℚ
  replacement : String
  speaker_id? : Option String
deriving DecidableEq, Repr

/-- Attribute lookup `m.speaker_id`, raising `AttributeError` when the object
has no such attribute. -/
def getattr_speaker_id (m : PyMatch) : Except String String :=
  match m.speaker_id? with
  | some s => .ok s
  | none => .error "AttributeError: ProfanityMatch object has no attribute speaker_id"

/-- The runtime object corresponding to an analyzer-produced
`ProfanityMatch`: no `speaker_id` attribute. -/
def ofProfanityMatch (m : AudioAnalyzer.ProfanityMatch) : PyMatch :=
  { word := m.word, start_time := m.start_time, end_time := m.end_time
    replacement := m.replacement, speaker_id? := none }

/-- A formatted cluster (`speaker_id`, envelope, space-joined replacement
phrase). -/
structure Cluster where
  speaker_id : String
  start_time : ℚ
  end_time : ℚ
  phrase : String
deriving DecidableEq, Repr

/-- Stable insertion sort by start time, as in `cluster_matches`
(`sorted(matches, key=lambda m: m.start_time)`). -/
def insertByStartP (m : PyMatch) : List PyMatch → List PyMatch
  | [] => [m]
  | n :: ns =>
      if m.start_time ≤ n.start_time then m :: n :: ns else n :: insertByStartP m ns

def sortByStartP : List PyMatch → List PyMatch
  | [] => []
  | m :: ms => insertByStartP m (sortByStartP ms)

/-- The running cluster record built by `cluster_matches`. -/
structure CurCluster where
  speaker_id : String
  start_time : ℚ
  end_time : ℚ
  original_words : List String
  replacement_words : List String
deriving DecidableEq, Repr

/-- The loop over `sorted_matches[1:]` of `cluster_matches`.  Python
evaluates `m.speaker_id` before the gap comparison, so the attribute error
fires on the first iteration regardless of the gap. -/
def clusterLoop (θ : ℚ) (cur : CurCluster) :
    List PyMatch → Except String (List CurCluster)
  | [] => .ok [cur]
  | m :: rest => do
      let sid ← getattr_speaker_id m
      if sid == cur.speaker_id ∧ m.start_time - cur.end_time < θ then
        clusterLoop θ
          { cur with end_time := m.end_time
                     original_words := cur.original_words ++ [m.word]
                     replacement_words := cur.replacement_words ++ [m.replacement] }
          rest
      else
        (clusterLoop θ
          { speaker_id := sid, start_time := m.start_time, end_time := m.end_time
            original_words := [m.word], replacement_words := [m.replacement] }
          rest).map (cur :: ·)

/-- Embedding of `ElevenLabsDubber.cluster_matches(matches, threshold=1.0)`.
The very first thing it does with a non-empty list is read
`sorted_matches[0].speaker_id`. -/
def cluster_matches (ms : List PyMatch) (θ : ℚ := 1) : Except String (List Cluster) :=
  match sortByStartP ms with
  | [] => .ok []
  | m :: rest => do
      let sid ← getattr_speaker_id m
      let clusters ← clusterLoop θ
        ⟨sid, m.start_time, m.end_time, [m.word], [m.replacement]⟩ rest
      .ok (clusters.map fun c =>
        ⟨c.speaker_id, c.start_time, c.end_time, String.intercalate " " c.replacement_words⟩)

/-- Embedding of `apply_dubs_direct`: empty match list copies the video with
no TTS; otherwise matches are clustered first, and one `generate_speech` call
is made per cluster.  The second component counts TTS requests issued. -/
def apply_dubs_direct_run (ms : List PyMatch) : Except String (List Cluster) × ℕ :=
  if ms.isEmpty then (.ok [], 0)
  else
    match cluster_matches ms with
    | .error e => (.error e, 0)
    | .ok clusters => (.ok clusters, clusters.length)

/-- Outcomes of the external steps of `apply_dubs_with_clone`. -/
structure CloneOracle where
  extract_sample : Except String Unit
  create_clone : Except String String
  analysis : Except String (List PyMatch)
  dub_steps : Except String Unit
deriving Repr

/-- The observable effect of one `apply_dubs_with_clone` call on the TTS
provider: which voice ids the call created (`voices.ivc.create`) and which it
deleted (`voices.delete`, issued by the `finally` block). -/
structure CloneRunResult where
  result : Except String Unit
  created_voices : List String
  deleted_voices : List String
deriving Repr

/-- Embedding of `apply_dubs_with_clone`: the clone is created up front, and
the `finally` block deletes `cloned_voice_id` whenever it was set, on success,
on early copy-return, and on every failure path.  (The provider-side delete
call itself is modelled as effective; `delete_cloned_voice` swallowing a
provider error is a provider fault, not a control-flow path.) -/
def apply_dubs_with_clone_run (o : CloneOracle)
    (word_replacements_nonempty : Bool) : CloneRunResult :=
  if ¬ word_replacements_nonempty then ⟨.ok (), [], []⟩
  else
    match o.extract_sample with
    | .error e => ⟨.error e, [], []⟩
    | .ok _ =>
        match o.create_clone with
        | .error e => ⟨.error e, [], []⟩
        | .ok vid =>
            match o.analysis with
            | .error e => ⟨.error e, [vid], [vid]⟩
            | .ok ms =>
                if ms.isEmpty then ⟨.ok (), [vid], [vid]⟩
                else
                  match cluster_matches ms with
                  | .error e => ⟨.error e, [vid], [vid]⟩
                  | .ok _ =>
                      match o.dub_steps with
                      | .error e => ⟨.error e, [vid], [vid]⟩
                      | .ok _ => ⟨.ok (), [vid], [vid]⟩

end Dubber

namespace Fixtures

/-! ## Concrete inputs used by counterexamples and witnesses -/

/-- Two analyzer matches where the later-starting match is contained in the
earlier one: starts `0 < 1`, ends `5 > 2`. -/
def overlapMatches : List AudioAnalyzer.ProfanityMatch :=
  [⟨"piece of shit", 0, 5, "rubbish", "high", ""⟩,
   ⟨"damn", 1, 2, "darn", "high", ""⟩]

/-- Two well-separated, non-overlapping matches with gap 0.2 s. -/
def adjacentMatches : List AudioAnalyzer.ProfanityMatch :=
  [⟨"damn", 4, 43/10, "darn", "high", ""⟩,
   ⟨"hell", 9/2, 24/5, "heck", "high", ""⟩]

/-- Spec-modelled envelope bound: the maximum end time over a list of
matches (the spec's `max end` of the envelope `[min start, max end]`). -/
def envelope_max_end : List AudioAnalyzer.ProfanityMatch → ℚ
  | [] => 0
  | m :: ms => (ms.map AudioAnalyzer.ProfanityMatch.end_time).foldl max m.end_time

/-- Spec-modelled envelope bound: the minimum start time. -/
def envelope_min_start : List AudioAnalyzer.ProfanityMatch → ℚ
  | [] => 0
  | m :: ms => (ms.map AudioAnalyzer.ProfanityMatch.start_time).foldl min m.start_time

/-- The first profanity of scenario S4: `damn` at 1.2–1.5 s. -/
def beepMatch : AudioAnalyzer.ProfanityMatch :=
  ⟨"damn", 6/5, 3/2, "darn", "high", ""⟩

/-- A job that has already completed one blur edit: its `output_path` points
at the stitched result, which exists on disk. -/
def chainedJob : Pipeline.JobState :=
  { job_id := "ab12cd34"
    video_path := some ⟨"storage/jobs/ab12cd34", "input.mp4"⟩
    output_path := some ⟨"storage/jobs/ab12cd34", "output_blur_0a1b2c3d_stitched.mp4"⟩
    stage := .completed }

/-- The files on disk for `chainedJob`. -/
def chainedFs : List PathS :=
  [⟨"storage/jobs/ab12cd34", "input.mp4"⟩,
   ⟨"storage/jobs/ab12cd34", "output_blur_0a1b2c3d_stitched.mp4"⟩]

/-- A job in its standard on-disk layout, as `create_job` plus frame
extraction leave it. -/
def persistJob : Pipeline.JobState :=
  { job_id := "ab12cd34"
    video_path := some ⟨"storage/jobs/ab12cd34", "input.mp4"⟩
    frames_dir := some ⟨"storage/jobs/ab12cd34", "frames"⟩
    frame_paths := [⟨"storage/jobs/ab12cd34/frames", "frame_000001.png"⟩,
                    ⟨"storage/jobs/ab12cd34/frames", "frame_000002.png"⟩]
    stage := .completed
    progress := 100
    video_info := [("fps", 30), ("duration", 12)]
    gcs_url := some "gs://vidmod/jobs/ab12cd34/input.mp4"
    error := none }

end Fixtures

/-! # Theorems -/

theorem ne_of_head_ne (s t : String) (c d : Char)
    (hc : s.data.head? = some c) (hd : t.data.head? = some d) (hcd : c ≠ d) :
    s ≠ t := by
  intro h; subst h; rw [hc] at hd; exact hcd (Option.some.inj hd)

theorem ne_of_length_ne (s t : String) (h : s.length ≠ t.length) : s ≠ t :=
  fun he => h (he ▸ rfl)

namespace AudioAnalyzer

theorem mergeTwo_start (c n : ProfanityMatch) :
    (mergeTwo c n).start_time = c.start_time := rfl

theorem mergeTwo_end (c n : ProfanityMatch) : (mergeTwo c n).end_time = n.end_time := rfl

theorem mergeLoop_length_le (θ : ℚ) (rest : List ProfanityMatch) :
    ∀ c, (mergeLoop θ c rest).length ≤ rest.length + 1 := by
  induction rest with
  | nil => intro c; simp [mergeLoop]
  | cons n rs ih =>
      intro c
      by_cases h : n.start_time - c.end_time ≤ θ
      · simp only [mergeLoop, if_pos h, List.length_cons]
        exact le_trans (ih _) (by omega)
      · simp only [mergeLoop, if_neg h, List.length_cons]
        exact Nat.succ_le_succ (ih n)

/-- When the start-sorted list has an adjacent pair within the merge
threshold, the fold performs at least one merge, so its output is strictly
shorter than `current :: rest`. -/
theorem mergeLoop_length_of_pair (θ : ℚ) (rest : List ProfanityMatch) :
    ∀ c, hasMergeablePair θ (c :: rest) → (mergeLoop θ c rest).length ≤ rest.length := by
  induction rest with
  | nil => intro c h; simp [hasMergeablePair] at h
  | cons n rs ih =>
      intro c h
      by_cases hg : n.start_time - c.end_time ≤ θ
      · simp only [mergeLoop, if_pos hg, List.length_cons]
        simpa using mergeLoop_length_le θ rs (mergeTwo c n)
      · simp only [hasMergeablePair] at h
        have h2 : hasMergeablePair θ (n :: rs) := h.resolve_left hg
        simp only [mergeLoop, if_neg hg, List.length_cons]
        exact Nat.succ_le_succ (ih n h2)

theorem insertByStart_length (m : ProfanityMatch) (l : List ProfanityMatch) :
    (insertByStart m l).length = l.length + 1 := by
  induction l with
  | nil => rfl
  | cons n ns ih =>
      by_cases h : m.start_time ≤ n.start_time
      · simp [insertByStart, if_pos h]
      · simp [insertByStart, if_neg h, ih]

theorem sortByStart_length (l : List ProfanityMatch) :
    (sortByStart l).length = l.length := by
  induction l with
  | nil => rfl
  | cons m ms ih => simp [sortByStart, insertByStart_length, ih]

/-- A merge pass on a list whose start-sorted form contains an adjacent
mergeable pair strictly decreases the match count. -/
theorem merge_count_lt (ms : List ProfanityMatch) (θ : ℚ)
    (hlen : 2 ≤ ms.length) (hpair : hasMergeablePair θ (sortByStart ms)) :
    (merge_adjacent_matches ms θ).length < ms.length := by
  unfold merge_adjacent_matches
  rw [if_neg (by omega)]
  cases hs : sortByStart ms with
  | nil =>
      have h0 := sortByStart_length ms
      rw [hs] at h0
      simp at h0
      omega
  | cons m rest =>
      rw [hs] at hpair
      have h1 := mergeLoop_length_of_pair θ rest m hpair
      have h2 := sortByStart_length ms
      rw [hs] at h2
      simp only [List.length_cons] at h2
      show (mergeLoop θ m rest).length < ms.length
      omega

/-- On a two-element list already sorted by start, the merge pass with the
gap within the threshold yields exactly the merged match. -/
theorem merge_pair_eq (a b : ProfanityMatch) (θ : ℚ)
    (hab : a.start_time ≤ b.start_time) (hgap : b.start_time - a.end_time ≤ θ) :
    merge_adjacent_matches [a, b] θ = [mergeTwo a b] := by
  have hsort : sortByStart [a, b] = [a, b] := by
    simp [sortByStart, insertByStart, if_pos hab]
  unfold merge_adjacent_matches
  rw [if_neg (by simp)]
  rw [hsort]
  show mergeLoop θ a [b] = [mergeTwo a b]
  simp only [mergeLoop]
  rw [if_pos hgap]

end AudioAnalyzer

/-- C6 counterexample: on the list `Fixtures.overlapMatches` the gap of the
start-sorted adjacent pair is `1 - 5 = -4 ≤ 0.5`, so the pass merges (the
count does decrease), but the merged match ends at `2`, not at the envelope's
maximum end `5`: the merge keeps the *last* match's end, not the maximum, so
the envelope `[min start, max end]` is not preserved. -/
theorem C6_profanity_merge_counterexample :
    (AudioAnalyzer.merge_adjacent_matches Fixtures.overlapMatches (1/2)).length <
        Fixtures.overlapMatches.length ∧
      ¬ ∀ m ∈ AudioAnalyzer.merge_adjacent_matches Fixtures.overlapMatches (1/2),
          m.end_time = Fixtures.envelope_max_end Fixtures.overlapMatches := by
  have hres : AudioAnalyzer.merge_adjacent_matches Fixtures.overlapMatches (1/2) =
      [⟨"piece of shit damn", 0, 2, "rubbish darn", "high", ""⟩] := by
    norm_num [Fixtures.overlapMatches, AudioAnalyzer.merge_adjacent_matches,
      AudioAnalyzer.sortByStart, AudioAnalyzer.insertByStart,
      AudioAnalyzer.mergeLoop, AudioAnalyzer.mergeTwo]
    exact ⟨rfl, rfl⟩
  constructor
  · rw [hres]; simp [Fixtures.overlapMatches]
  · intro h
    have h2 := h ⟨"piece of shit damn", 0, 2, "rubbish darn", "high", ""⟩
      (by rw [hres]; exact List.mem_singleton.mpr rfl)
    norm_num [Fixtures.envelope_max_end, Fixtures.overlapMatches] at h2

/-- C6 amended: for every match list whose start-sorted form contains an
adjacent pair with gap at most the threshold, the merge pass strictly
decreases the match count; and for two matches sorted by start whose end
times are also nondecreasing (in particular any non-overlapping pair with
gap ≤ 0.5 s), the merged match is exactly the pair's merge and its interval
is the envelope `[min start, max end]`.  (When a later-starting match ends
before an earlier one, the merged end is the last match's end and the
envelope maximum is lost — see the counterexample.) -/
theorem C6_profanity_merge_amended (ms : List AudioAnalyzer.ProfanityMatch) (θ : ℚ)
    (hlen : 2 ≤ ms.length)
    (hpair : AudioAnalyzer.hasMergeablePair θ (AudioAnalyzer.sortByStart ms))
    (a b : AudioAnalyzer.ProfanityMatch)
    (hab : a.start_time ≤ b.start_time) (hend : a.end_time ≤ b.end_time)
    (hgap : b.start_time - a.end_time ≤ θ) :
    (AudioAnalyzer.merge_adjacent_matches ms θ).length < ms.length ∧
    AudioAnalyzer.merge_adjacent_matches [a, b] θ = [AudioAnalyzer.mergeTwo a b] ∧
    (AudioAnalyzer.mergeTwo a b).start_time = min a.start_time b.start_time ∧
    (AudioAnalyzer.mergeTwo a b).end_time = max a.end_time b.end_time :=
  ⟨AudioAnalyzer.merge_count_lt ms θ hlen hpair,
   AudioAnalyzer.merge_pair_eq a b θ hab hgap,
   (min_eq_left hab).symm,
   (max_eq_right hend).symm⟩

/-- C6 witness: the amended theorem applied to the two matches
`[4, 4.3]`, `[4.5, 4.8]` (gap 0.2 s ≤ 0.5 s). -/
theorem C6_profanity_merge_witness :
    (AudioAnalyzer.merge_adjacent_matches Fixtures.adjacentMatches (1/2)).length <
        Fixtures.adjacentMatches.length ∧
    AudioAnalyzer.merge_adjacent_matches
        [⟨"damn", 4, 43/10, "darn", "high", ""⟩,
         ⟨"hell", 9/2, 24/5, "heck", "high", ""⟩] (1/2) =
      [AudioAnalyzer.mergeTwo
        ⟨"damn", 4, 43/10, "darn", "high", ""⟩
        ⟨"hell", 9/2, 24/5, "heck", "high", ""⟩] ∧
    (AudioAnalyzer.mergeTwo
        ⟨"damn", 4, 43/10, "darn", "high", ""⟩
        ⟨"hell", 9/2, 24/5, "heck", "high", ""⟩).start_time =
      min (4 : ℚ) (9/2) ∧
    (AudioAnalyzer.mergeTwo
        ⟨"damn", 4, 43/10, "darn", "high", ""⟩
        ⟨"hell", 9/2, 24/5, "heck", "high", ""⟩).end_time =
      max (43/10 : ℚ) (24/5) :=
  C6_profanity_merge_amended Fixtures.adjacentMatches (1/2)
    (by norm_num [Fixtures.adjacentMatches])
    (by norm_num [Fixtures.adjacentMatches, AudioAnalyzer.sortByStart,
      AudioAnalyzer.insertByStart, AudioAnalyzer.hasMergeablePair])
    ⟨"damn", 4, 43/10, "darn", "high", ""⟩
    ⟨"hell", 9/2, 24/5, "heck", "high", ""⟩
    (by norm_num) (by norm_num) (by norm_num)

/-- C7 counterexample: for the match `damn` at `[1.2, 1.5]` the claim says
the original audio is muted on the padded window `[1.15, 1.55]`; but
`apply_beeps` builds `between(t,1.2,1.5)` with the raw timestamps and adds no
padding, so the time `t = 1.17`, inside the claimed padded window, is not
muted. -/
theorem C7_beep_counterexample :
    BeepProcessor.mutedAt (BeepProcessor.mute_windows [Fixtures.beepMatch])
        (117/100) = false ∧
      Fixtures.beepMatch.start_time - 1/20 ≤ 117/100 ∧
      (117/100 : ℚ) ≤ Fixtures.beepMatch.end_time + 1/20 := by
  norm_num [Fixtures.beepMatch, BeepProcessor.mutedAt, BeepProcessor.mute_windows]

/-- C7 amended: the beep operation mutes the original audio exactly during
each match window `[start, end]`, with no padding; and for each match it
overlays a sine tone of exactly the match duration delayed by
`int(start·1000)` milliseconds, which (for non-negative start times of
millisecond precision) occupies exactly the match window. -/
theorem C7_beep_amended (ms : List AudioAnalyzer.ProfanityMatch) (t : ℚ)
    (m : AudioAnalyzer.ProfanityMatch)
    (hden : (m.start_time * 1000).den = 1) (h0 : 0 ≤ m.start_time) :
    (BeepProcessor.mutedAt (BeepProcessor.mute_windows ms) t = true ↔
      ∃ x ∈ ms, x.start_time ≤ t ∧ t ≤ x.end_time) ∧
    BeepProcessor.beep_plan [m] =
      [(m.end_time - m.start_time, pyInt (m.start_time * 1000))] ∧
    BeepProcessor.beepWindow (m.end_time - m.start_time, pyInt (m.start_time * 1000)) =
      (m.start_time, m.end_time) := by
  refine ⟨?_, rfl, ?_⟩
  · simp [BeepProcessor.mutedAt, BeepProcessor.mute_windows, List.any_map,
      List.any_eq_true]
  · have hq : ((m.start_time * 1000 : ℚ).num : ℚ) = m.start_time * 1000 := by
      conv_rhs => rw [← Rat.num_div_den (m.start_time * 1000)]
      rw [hden]
      simp
    have hfloor : pyInt (m.start_time * 1000) = (m.start_time * 1000).num := by
      unfold pyInt
      rw [if_pos (by positivity)]
      rw [← hq]
      exact Int.floor_intCast _
    unfold BeepProcessor.beepWindow
    rw [hfloor, hq]
    simp only [Prod.mk.injEq]
    constructor <;> ring_nf

/-- C7 witness: the amended theorem applied to the single match `damn` at
`[1.2, 1.5]` and the probe time `t = 1.3`. -/
theorem C7_beep_witness :
    (BeepProcessor.mutedAt (BeepProcessor.mute_windows [Fixtures.beepMatch])
        (13/10) = true ↔
      ∃ x ∈ [Fixtures.beepMatch], x.start_time ≤ 13/10 ∧ (13/10 : ℚ) ≤ x.end_time) ∧
    BeepProcessor.beep_plan [Fixtures.beepMatch] =
      [(Fixtures.beepMatch.end_time - Fixtures.beepMatch.start_time,
        pyInt (Fixtures.beepMatch.start_time * 1000))] ∧
    BeepProcessor.beepWindow
        (Fixtures.beepMatch.end_time - Fixtures.beepMatch.start_time,
          pyInt (Fixtures.beepMatch.start_time * 1000)) =
      (Fixtures.beepMatch.start_time, Fixtures.beepMatch.end_time) :=
  C7_beep_amended [Fixtures.beepMatch] (13/10) Fixtures.beepMatch
    (by norm_num [Fixtures.beepMatch]) (by norm_num [Fixtures.beepMatch])

namespace Chunking

theorem makeChunksAux_sum (fuel : ℕ) :
    ∀ current total : ℚ, current ≤ total → total - current ≤ 5 * fuel →
      totalDuration (makeChunksAux fuel current total) = total - current := by
  induction fuel with
  | zero =>
      intro current total h1 h2
      simp only [Nat.cast_zero, mul_zero] at h2
      simp only [makeChunksAux, totalDuration, List.map_nil, List.sum_nil]
      linarith
  | succ fuel ih =>
      intro current total h1 h2
      by_cases h : current < total
      · simp only [makeChunksAux, if_pos h]
        set len := min (5 : ℚ) (total - current) with hlen
        have hle : len ≤ total - current := min_le_right _ _
        have h1' : current + len ≤ total := by linarith
        have h2' : total - (current + len) ≤ 5 * fuel := by
          rcases le_or_lt (total - current) 5 with hc | hc
          · have he : len = total - current := min_eq_right hc
            have : total - (current + len) = 0 := by rw [he]; ring
            rw [this]
            positivity
          · have he : len = 5 := min_eq_left hc.le
            rw [he]
            push_cast at h2 ⊢
            linarith
        have hrec := ih (current + len) total h1' h2'
        simp only [totalDuration, List.map_cons, List.sum_cons] at hrec ⊢
        rw [hrec]
        ring
      · simp only [makeChunksAux, if_neg h, totalDuration, List.map_nil, List.sum_nil]
        have : current = total := le_antisymm h1 (not_lt.mp h)
        rw [this]
        ring

theorem makeChunksAux_duration_bounds (fuel : ℕ) :
    ∀ current total : ℚ, ∀ c ∈ makeChunksAux fuel current total,
      0 < c.duration ∧ c.duration ≤ 5 := by
  induction fuel with
  | zero => intro current total c hc; simp [makeChunksAux] at hc
  | succ fuel ih =>
      intro current total c hc
      by_cases h : current < total
      · simp only [makeChunksAux, if_pos h, List.mem_cons] at hc
        rcases hc with rfl | hc
        · exact ⟨lt_min (by norm_num) (by linarith), min_le_left _ _⟩
        · exact ih _ _ c hc
      · simp [makeChunksAux, if_neg h] at hc

theorem makeChunksAux_chain (fuel : ℕ) :
    ∀ current total : ℚ,
      consecutive (makeChunksAux fuel current total) ∧
      ∀ c, (makeChunksAux fuel current total).head? = some c → c.start = current := by
  induction fuel with
  | zero =>
      intro current total
      exact ⟨trivial, by simp [makeChunksAux]⟩
  | succ fuel ih =>
      intro current total
      by_cases h : current < total
      · obtain ⟨ihc, ihh⟩ := ih (current + min 5 (total - current)) total
        constructor
        · simp only [makeChunksAux, if_pos h]
          cases hr : makeChunksAux fuel (current + min 5 (total - current)) total with
          | nil => exact trivial
          | cons b bs =>
              rw [hr] at ihc
              refine ⟨?_, ihc⟩
              exact ihh b (by rw [hr]; rfl)
        · intro c hc
          simp only [makeChunksAux, if_pos h, List.head?_cons] at hc
          rw [← Option.some.inj hc]
      · simp [makeChunksAux, if_neg h, consecutive]

/-- For positive totals the fuel `⌈total⌉ + 1` suffices for the chunk loop. -/
theorem makeChunks_fuel_ok (total : ℚ) (h : 0 < total) :
    total - 0 ≤ 5 * ((⌈total⌉.toNat + 1 : ℕ) : ℚ) := by
  have h1 : total ≤ (⌈total⌉ : ℚ) := Int.le_ceil total
  have h2 : (0 : ℤ) ≤ ⌈total⌉ := by positivity
  have h3 : ((⌈total⌉.toNat : ℤ) : ℚ) = ((⌈total⌉ : ℤ) : ℚ) := by
    rw [Int.toNat_of_nonneg h2]
  push_cast at h3 ⊢
  nlinarith [h1, h3]

end Chunking

/-- C3 counterexample: a 14-second request is split into chunks of 5, 5 and
4 seconds, but the claimed "each chunk's processed result is trimmed to its
exact source-chunk duration" is false: the trim is skipped whenever
`abs(req_seconds - duration) ≤ 0.1` with the request hard-coded to 5 s, so a
5-second chunk whose backend result is 6 s long is passed through at 6 s
instead of being trimmed to 5 s. -/
theorem C3_chunking_counterexample :
    (Chunking.makeChunks 14).map Chunking.Chunk.duration = [5, 5, 4] ∧
    (⟨0, 5⟩ : Chunking.Chunk) ∈ Chunking.makeChunks 14 ∧
    Chunking.trimmed_chunk_duration 6 ⟨0, 5⟩ = 6 ∧ (6 : ℚ) ≠ 5 := by
  have h14 : Chunking.makeChunks 14 =
      [⟨0, 5⟩, ⟨5, 5⟩, ⟨10, 4⟩] := by
    norm_num [Chunking.makeChunks, Chunking.makeChunksAux]
  refine ⟨by rw [h14]; rfl, by rw [h14]; simp, ?_, by norm_num⟩
  norm_num [Chunking.trimmed_chunk_duration, Chunking.extract_clip_duration]

/-- C3 amended: for every requested duration above the 10-second limit the
clip is split into consecutive chunks of at most 5 seconds (each positive)
whose durations sum to the total, processed in list order; a chunk's
processed result is trimmed back to its exact source-chunk duration exactly
when that duration differs from the hard-coded 5-second request by more than
0.1 s (so 5-second chunks are passed through untrimmed even if the backend
over-produces); a 14-second request yields chunk durations 5, 5 and 4 with
only the last one trimmed. -/
theorem C3_chunking_amended (total : ℚ) (h10 : 10 < total)
    (d : ℚ) (c : Chunking.Chunk) (hc : |(5 : ℚ) - c.duration| > 1/10)
    (hd : c.duration ≤ d) :
    Chunking.uses_chunking total = true ∧
    Chunking.totalDuration (Chunking.makeChunks total) = total ∧
    Chunking.consecutive (Chunking.makeChunks total) ∧
    (∀ x ∈ Chunking.makeChunks total, 0 < x.duration ∧ x.duration ≤ 5) ∧
    Chunking.trimmed_chunk_duration d c = c.duration ∧
    (Chunking.makeChunks 14).map Chunking.Chunk.duration = [5, 5, 4] := by
  have hpos : (0 : ℚ) < total := by linarith
  refine ⟨by simp [Chunking.uses_chunking]; linarith, ?_, ?_, ?_, ?_, ?_⟩
  · have := Chunking.makeChunksAux_sum (⌈total⌉.toNat + 1) 0 total hpos.le
      (Chunking.makeChunks_fuel_ok total hpos)
    simpa [Chunking.makeChunks] using this
  · exact (Chunking.makeChunksAux_chain _ 0 total).1
  · exact fun x hx => Chunking.makeChunksAux_duration_bounds _ 0 total x hx
  · unfold Chunking.trimmed_chunk_duration Chunking.extract_clip_duration
    rw [if_pos hc]
    have : min d (c.duration + 0) = c.duration := by
      rw [add_zero]; exact min_eq_right hd
    rw [this]
    norm_num
  · norm_num [Chunking.makeChunks, Chunking.makeChunksAux]

/-- C3 witness: the amended theorem at `total = 14` with a 4-second chunk
whose backend result is 5 s long (the result is trimmed back to 4 s). -/
theorem C3_chunking_witness :
    Chunking.uses_chunking 14 = true ∧
    Chunking.totalDuration (Chunking.makeChunks 14) = 14 ∧
    Chunking.consecutive (Chunking.makeChunks 14) ∧
    (∀ x ∈ Chunking.makeChunks 14, 0 < x.duration ∧ x.duration ≤ 5) ∧
    Chunking.trimmed_chunk_duration 5 ⟨10, 4⟩ = (4 : ℚ) ∧
    (Chunking.makeChunks 14).map Chunking.Chunk.duration = [5, 5, 4] := by
  have := C3_chunking_amended 14 (by norm_num) 5 ⟨10, 4⟩ (by norm_num) (by norm_num)
  simpa using this

theorem Builder.insert_segment_parts_eq (o p : Builder.Video) (s b : ℚ) (ha : Bool) :
    Builder.insert_segment_parts o p s b ha =
      (if max 0 (s - b) > 0 then [o] else []) ++
        [Builder.normalize_video_fps p o.fps] ++ (if ha then [o] else []) := rfl

/-- C5 counterexample: a processed segment at 29.6 fps against a 30 fps
source is within the 0.5 fps tolerance, so normalization is a pass-through
copy — exactly as the claim describes — and with `start ≤ buffer` the stitch
has no pre-clip, so the concat output's stream parameters come from the
untouched 29.6 fps segment: the stitched output's fps does not equal the
source's fps, refuting the claimed consequence. -/
theorem C5_fps_counterexample :
    Builder.normalize_video_fps ⟨148/5⟩ 30 = ⟨148/5⟩ ∧
    Builder.insert_segment_fps ⟨30⟩ ⟨148/5⟩ (1/2) 1 true ≠ 30 := by
  have habs : |(148/5 : ℚ) - 30| < 1/2 := by
    rw [abs_lt]; constructor <;> norm_num
  have hnorm : Builder.normalize_video_fps ⟨148/5⟩ 30 = ⟨148/5⟩ := by
    rw [Builder.normalize_video_fps, if_pos habs]
  refine ⟨hnorm, ?_⟩
  have hmax : ¬ (max (0 : ℚ) (1/2 - 1) > 0) := by
    rw [max_eq_left (by norm_num)]
    norm_num
  unfold Builder.insert_segment_fps
  rw [Builder.insert_segment_parts_eq, if_neg hmax]
  show (Builder.normalize_video_fps ⟨148/5⟩ 30).fps ≠ 30
  rw [hnorm]
  norm_num

/-- C5 amended: `insert_segment` always fps-normalizes the processed segment
to the original's rate before concatenation, where normalization is a
pass-through copy when `abs(fps - target) < 0.5` and a re-encode to exactly
the target rate otherwise; consequently every concatenated part is within
0.5 fps of the source rate, and the stitched output's fps equals the source's
exactly whenever a pre-clip exists (`buffer < start`) or the segment's fps
was at least 0.5 away (re-encoded) or already equal — but only within 0.5 fps
in general. -/
theorem C5_fps_amended (original processed : Builder.Video) (start_time buffer : ℚ)
    (hasAfter : Bool) :
    (|processed.fps - original.fps| < 1/2 →
      Builder.normalize_video_fps processed original.fps = processed) ∧
    (1/2 ≤ |processed.fps - original.fps| →
      (Builder.normalize_video_fps processed original.fps).fps = original.fps) ∧
    (∀ part ∈ Builder.insert_segment_parts original processed start_time buffer hasAfter,
      |part.fps - original.fps| < 1/2) ∧
    (buffer < start_time →
      Builder.insert_segment_fps original processed start_time buffer hasAfter =
        original.fps) ∧
    ((1/2 ≤ |processed.fps - original.fps| ∨ processed.fps = original.fps) →
      Builder.insert_segment_fps original processed start_time buffer hasAfter =
        original.fps) := by
  have hnorm : ∀ h : |processed.fps - original.fps| < 1/2,
      Builder.normalize_video_fps processed original.fps = processed :=
    fun h => by rw [Builder.normalize_video_fps, if_pos h]
  have hnorm2 : ∀ _ : 1/2 ≤ |processed.fps - original.fps|,
      (Builder.normalize_video_fps processed original.fps).fps = original.fps := by
    intro h
    rw [Builder.normalize_video_fps, if_neg (by linarith)]
  have hclose : |(Builder.normalize_video_fps processed original.fps).fps -
      original.fps| < 1/2 := by
    rcases lt_or_le |processed.fps - original.fps| (1/2) with h | h
    · rw [hnorm h]; exact h
    · rw [hnorm2 h]; simp
  refine ⟨hnorm, hnorm2, ?_, ?_, ?_⟩
  · intro part hp
    rw [Builder.insert_segment_parts_eq] at hp
    have hmem : part = original ∨
        part = Builder.normalize_video_fps processed original.fps := by
      rcases List.mem_append.mp hp with h1 | h2
      · rcases List.mem_append.mp h1 with h3 | h4
        · left
          split at h3
          · simpa using h3
          · simp at h3
        · right; simpa using h4
      · left
        split at h2
        · simpa using h2
        · simp at h2
    rcases hmem with rfl | rfl
    · simp only [sub_self, abs_zero]; norm_num
    · exact hclose
  · intro hb
    have hpos : max 0 (start_time - buffer) > 0 := by
      rw [gt_iff_lt, lt_max_iff]; right; linarith
    unfold Builder.insert_segment_fps
    rw [Builder.insert_segment_parts_eq, if_pos hpos]
    rfl
  · intro hcase
    have hfps : (Builder.normalize_video_fps processed original.fps).fps =
        original.fps := by
      rcases hcase with h | h
      · exact hnorm2 h
      · rw [Builder.normalize_video_fps]
        split
        · exact h
        · rfl
    unfold Builder.insert_segment_fps
    rw [Builder.insert_segment_parts_eq]
    by_cases hb : max 0 (start_time - buffer) > 0
    · rw [if_pos hb]; rfl
    · rw [if_neg hb]; exact hfps

/-- C5 witness: a 24 fps segment stitched into a 30 fps source with window
start 3 s and buffer 1 s is re-encoded, and the stitched output runs at
30 fps. -/
theorem C5_fps_witness :
    Builder.insert_segment_fps ⟨30⟩ ⟨24⟩ 3 1 true = (30 : ℚ) :=
  ((C5_fps_amended ⟨30⟩ ⟨24⟩ 3 1 true).2.2.2.1 (by norm_num))

namespace Routers

theorem mask_cache_filename_congr (md5hex : String → String) {p1 p2 : String}
    (hp : p1.toLower = p2.toLower) (isClip : Bool) :
    mask_cache_filename md5hex p2 isClip = mask_cache_filename md5hex p1 isClip := by
  unfold mask_cache_filename prompt_slug prompt_hash8
  rw [hp]

theorem cache_step_mask_path (md5hex : String → String) (fs : List PathS)
    (job_dir prompt : String) (isClip : Bool) :
    (blur_mask_cache_step md5hex fs job_dir prompt isClip).mask_path =
      ⟨job_dir, mask_cache_filename md5hex prompt isClip⟩ := by
  unfold blur_mask_cache_step
  by_cases h : (⟨job_dir, mask_cache_filename md5hex prompt isClip⟩ : PathS).existsIn fs
  · rw [if_pos h]
  · rw [if_neg h]

/-- After a cache step the cache file always exists: either it already did,
or the freshly produced mask was copied to the cache name. -/
theorem cache_step_mask_mem (md5hex : String → String) (fs : List PathS)
    (job_dir prompt : String) (isClip : Bool) :
    ((⟨job_dir, mask_cache_filename md5hex prompt isClip⟩ : PathS).existsIn
      (blur_mask_cache_step md5hex fs job_dir prompt isClip).fs) = true := by
  unfold blur_mask_cache_step
  by_cases h : (⟨job_dir, mask_cache_filename md5hex prompt isClip⟩ : PathS).existsIn fs
  · rw [if_pos h]
    exact h
  · rw [if_neg h]
    simp [PathS.existsIn]

end Routers

/-- C4: two blur/pixelate operations whose prompts agree after lowercasing
(hence share the md5-based hash and the slug) and that target the same clip
range reuse the same cache file: the second operation issues zero
segmentation requests and gets the very mask file the first produced.  The
cache name is `mask_{slug}_{hash8}{_clip}.mp4` with an 8-hex-character hash,
and the per-clip name (`_clip` suffix) never collides with the full-video
name. -/
theorem C4_mask_cache (md5hex : String → String) (fs : List PathS)
    (job_dir p1 p2 : String) (isClip : Bool)
    (hp : p1.toLower = p2.toLower)
    (hdigest : 8 ≤ (md5hex p1.toLower).length) :
    (Routers.blur_mask_cache_step md5hex
        (Routers.blur_mask_cache_step md5hex fs job_dir p1 isClip).fs
        job_dir p2 isClip).segmentation_calls = 0 ∧
    (Routers.blur_mask_cache_step md5hex
        (Routers.blur_mask_cache_step md5hex fs job_dir p1 isClip).fs
        job_dir p2 isClip).mask_path =
      (Routers.blur_mask_cache_step md5hex fs job_dir p1 isClip).mask_path ∧
    (Routers.blur_mask_cache_step md5hex fs job_dir p1 isClip).mask_path =
      ⟨job_dir, "mask_" ++ Routers.prompt_slug p1 ++ "_" ++
        Routers.prompt_hash8 md5hex p1 ++ (if isClip then "_clip" else "") ++ ".mp4"⟩ ∧
    (Routers.prompt_hash8 md5hex p1).length = 8 ∧
    Routers.mask_cache_filename md5hex p1 true ≠
      Routers.mask_cache_filename md5hex p1 false := by
  have hfn := Routers.mask_cache_filename_congr md5hex hp isClip
  have hmem := Routers.cache_step_mask_mem md5hex fs job_dir p1 isClip
  have hsecond :
      Routers.blur_mask_cache_step md5hex
          (Routers.blur_mask_cache_step md5hex fs job_dir p1 isClip).fs
          job_dir p2 isClip =
        { fs := (Routers.blur_mask_cache_step md5hex fs job_dir p1 isClip).fs
          segmentation_calls := 0
          mask_path := ⟨job_dir, Routers.mask_cache_filename md5hex p2 isClip⟩ } := by
    unfold Routers.blur_mask_cache_step
    rw [if_pos (by rw [hfn]; exact hmem)]
  refine ⟨?_, ?_, ?_, ?_, ?_⟩
  · rw [hsecond]
  · rw [hsecond]
    show (⟨job_dir, Routers.mask_cache_filename md5hex p2 isClip⟩ : PathS) = _
    rw [hfn, Routers.cache_step_mask_path]
  · rw [Routers.cache_step_mask_path]
    rfl
  · show ((md5hex p1.toLower).take 8).length = 8
    rw [String.take_eq]
    show ((md5hex p1.toLower).data.take 8).length = 8
    rw [List.length_take]
    have : (md5hex p1.toLower).data.length = (md5hex p1.toLower).length := rfl
    omega
  · apply ne_of_length_ne
    have e1 : Routers.mask_cache_filename md5hex p1 true =
        "mask_" ++ Routers.prompt_slug p1 ++ "_" ++
          Routers.prompt_hash8 md5hex p1 ++ "_clip" ++ ".mp4" := rfl
    have e2 : Routers.mask_cache_filename md5hex p1 false =
        "mask_" ++ Routers.prompt_slug p1 ++ "_" ++
          Routers.prompt_hash8 md5hex p1 ++ "" ++ ".mp4" := rfl
    rw [e1, e2]
    simp only [String.length_append]
    have h5 : ("_clip" : String).length = 5 := rfl
    have h0 : ("" : String).length = 0 := rfl
    omega

/-- C4 witness: a second identical `Cigarette` request on the same clip,
with a 32-hex digest function: the repeat call issues zero segmentation
requests (scenario S1's repeated request). -/
theorem C4_mask_cache_witness :
    (Routers.blur_mask_cache_step (fun _ => "0123456789abcdef0123456789abcdef")
        (Routers.blur_mask_cache_step (fun _ => "0123456789abcdef0123456789abcdef")
          [] "storage/jobs/ab12cd34" "Cigarette" true).fs
        "storage/jobs/ab12cd34" "Cigarette" true).segmentation_calls = 0 ∧
    (Routers.blur_mask_cache_step (fun _ => "0123456789abcdef0123456789abcdef")
        (Routers.blur_mask_cache_step (fun _ => "0123456789abcdef0123456789abcdef")
          [] "storage/jobs/ab12cd34" "Cigarette" true).fs
        "storage/jobs/ab12cd34" "Cigarette" true).mask_path =
      (Routers.blur_mask_cache_step (fun _ => "0123456789abcdef0123456789abcdef")
        [] "storage/jobs/ab12cd34" "Cigarette" true).mask_path ∧
    (Routers.blur_mask_cache_step (fun _ => "0123456789abcdef0123456789abcdef")
        [] "storage/jobs/ab12cd34" "Cigarette" true).mask_path =
      ⟨"storage/jobs/ab12cd34", "mask_" ++
        Routers.prompt_slug "Cigarette" ++ "_" ++
        Routers.prompt_hash8 (fun _ => "0123456789abcdef0123456789abcdef")
          "Cigarette" ++ (if true then "_clip" else "") ++ ".mp4"⟩ ∧
    (Routers.prompt_hash8 (fun _ => "0123456789abcdef0123456789abcdef")
        "Cigarette").length = 8 ∧
    Routers.mask_cache_filename (fun _ => "0123456789abcdef0123456789abcdef")
        "Cigarette" true ≠
      Routers.mask_cache_filename (fun _ => "0123456789abcdef0123456789abcdef")
        "Cigarette" false :=
  C4_mask_cache (fun _ => "0123456789abcdef0123456789abcdef") []
    "storage/jobs/ab12cd34" "Cigarette" "Cigarette" true rfl (by decide)

/-- C1 counterexample: on a job whose previous blur output exists on disk,
the spec's source-selection rule picks that output, but `censor_audio`
analyzes and censors `job.video_path` — the original upload — so a censor
submitted after a blur does not consume the blur's output. -/
theorem C1_source_selection_counterexample :
    Routers.spec_select_source Fixtures.chainedFs Fixtures.chainedJob =
      some ⟨"storage/jobs/ab12cd34", "output_blur_0a1b2c3d_stitched.mp4"⟩ ∧
    Routers.censor_audio_source Fixtures.chainedJob =
      some ⟨"storage/jobs/ab12cd34", "input.mp4"⟩ ∧
    Routers.censor_audio_source Fixtures.chainedJob ≠
      Routers.spec_select_source Fixtures.chainedFs Fixtures.chainedJob := by
  refine ⟨?_, rfl, ?_⟩ <;> decide

/-- C1 amended: `blur_object` (both smart-clip and legacy paths) selects its
source by the spec rule — the previous `output_path` when that file exists,
else the original video — but `censor_audio` always consumes
`job.video_path`; and on success every modelled operation moves
`output_path` to a freshly named file distinct from the source video, so
`output_path` never regresses to the source. -/
theorem C1_source_selection_amended (fs : List PathS) (job : Pipeline.JobState)
    (vp : PathS) (hvp : job.video_path = some vp)
    (ext hash effect mode : String) (hin : vp.name = "input" ++ ext) :
    Routers.blur_source fs job = Routers.spec_select_source fs job ∧
    Routers.censor_audio_source job = job.video_path ∧
    (∃ p, (Routers.blur_object_smart_run job effect hash (.ok ())).output_path =
        some p ∧ p ≠ vp) ∧
    (∃ p, (Routers.censor_audio_run job mode (.ok ())).output_path =
        some p ∧ p ≠ vp) := by
  have hvpname : vp.name.data.head? = some 'i' := by
    rw [hin, String.data_append]
    rfl
  refine ⟨rfl, rfl, ?_, ?_⟩
  · refine ⟨⟨vp.dir, Routers.blur_output_name effect hash true⟩, ?_, ?_⟩
    · simp [Routers.blur_object_smart_run, hvp]
    · intro hcontra
      have hname : Routers.blur_output_name effect hash true = vp.name :=
        congrArg PathS.name hcontra
      refine ne_of_head_ne _ _ 'o' 'i' ?_ hvpname (by decide) hname
      show ("output_" ++ (effect ++ "_" ++ hash ++ "_stitched.mp4")).data.head? =
        some 'o'
      rw [String.data_append]
      rfl
  · refine ⟨⟨"storage/jobs/" ++ job.job_id, Routers.censor_output_name mode⟩, ?_, ?_⟩
    · simp [Routers.censor_audio_run, hvp]
    · intro hcontra
      have hname : Routers.censor_output_name mode = vp.name :=
        congrArg PathS.name hcontra
      refine ne_of_head_ne _ _ 'c' 'i' ?_ hvpname (by decide) hname
      unfold Routers.censor_output_name
      by_cases hm : mode == "beep"
      · rw [if_pos hm]; rfl
      · rw [if_neg hm]; rfl

/-- C1 witness: the amended theorem on the concrete chained job. -/
theorem C1_source_selection_witness :
    Routers.blur_source Fixtures.chainedFs Fixtures.chainedJob =
      Routers.spec_select_source Fixtures.chainedFs Fixtures.chainedJob ∧
    Routers.censor_audio_source Fixtures.chainedJob =
      Fixtures.chainedJob.video_path ∧
    (∃ p, (Routers.blur_object_smart_run Fixtures.chainedJob "pixelate" "99ffee00"
        (.ok ())).output_path = some p ∧
        p ≠ ⟨"storage/jobs/ab12cd34", "input.mp4"⟩) ∧
    (∃ p, (Routers.censor_audio_run Fixtures.chainedJob "beep"
        (.ok ())).output_path = some p ∧
        p ≠ ⟨"storage/jobs/ab12cd34", "input.mp4"⟩) :=
  C1_source_selection_amended Fixtures.chainedFs Fixtures.chainedJob
    ⟨"storage/jobs/ab12cd34", "input.mp4"⟩ rfl ".mp4" "99ffee00" "pixelate" "beep" rfl

/-- C2 counterexample: a failure inside the smart-clip path of `blur_object`
(e.g. the direct SAM3 call raising) is answered with an `HTTPException`
only: the job keeps its previous stage (`completed`, not `FAILED`) and its
`error` stays unset, contradicting the claimed failure policy for every edit
operation.  (`output_path` is indeed left unchanged.) -/
theorem C2_failure_policy_counterexample :
    (Routers.blur_object_smart_run Fixtures.chainedJob "blur" "0a1b2c3d"
        (.error "SAM3 rate limited")).stage = Pipeline.Stage.completed ∧
    Pipeline.Stage.completed ≠ Pipeline.Stage.failed ∧
    (Routers.blur_object_smart_run Fixtures.chainedJob "blur" "0a1b2c3d"
        (.error "SAM3 rate limited")).error = none ∧
    (Routers.blur_object_smart_run Fixtures.chainedJob "blur" "0a1b2c3d"
        (.error "SAM3 rate limited")).output_path =
      Fixtures.chainedJob.output_path := by
  refine ⟨rfl, by decide, rfl, rfl⟩

/-- C2 amended: the pipeline-level operations (`segment_video_with_sam3`,
`replace_object`, `replace_with_vace`) set `stage = FAILED` and `error` to
the failure message on an exception, leaving `output_path` unchanged; the
router handlers of `blur_object` (smart path) and `censor_audio` leave the
job entirely unchanged on failure — in particular `output_path` is unchanged
in every modelled failure path, so the previous edit stays downloadable. -/
theorem C2_failure_policy_amended (job : Pipeline.JobState)
    (e effect hash mode : String) :
    ((Pipeline.segment_video_with_sam3_run job (.error e)).stage =
        Pipeline.Stage.failed ∧
      (Pipeline.segment_video_with_sam3_run job (.error e)).error = some e ∧
      (Pipeline.segment_video_with_sam3_run job (.error e)).output_path =
        job.output_path) ∧
    ((Pipeline.replace_object_run job (.error e)).stage = Pipeline.Stage.failed ∧
      (Pipeline.replace_object_run job (.error e)).error = some e ∧
      (Pipeline.replace_object_run job (.error e)).output_path = job.output_path) ∧
    ((Pipeline.replace_with_vace_run job (.error e)).stage =
        Pipeline.Stage.failed ∧
      (Pipeline.replace_with_vace_run job (.error e)).error = some e ∧
      (Pipeline.replace_with_vace_run job (.error e)).output_path =
        job.output_path) ∧
    Routers.blur_object_smart_run job effect hash (.error e) = job ∧
    Routers.censor_audio_run job mode (.error e) = job := by
  refine ⟨⟨rfl, rfl, rfl⟩, ⟨rfl, rfl, rfl⟩, ⟨rfl, rfl, rfl⟩, ?_, ?_⟩
  · cases h : job.video_path <;> simp [Routers.blur_object_smart_run, h]
  · cases h : job.video_path <;> simp [Routers.censor_audio_run, h]

theorem takeWhile_append_stop {α} (p : α → Bool) (l1 : List α) (x : α) (l2 : List α)
    (h1 : ∀ a ∈ l1, p a = true) (hx : p x = false) :
    (l1 ++ x :: l2).takeWhile p = l1 := by
  induction l1 with
  | nil => simp [List.takeWhile_cons, hx]
  | cons a l ih =>
      have ha := h1 a (List.mem_cons_self a l)
      simp only [List.cons_append, List.takeWhile_cons, ha, if_true]
      rw [ih (fun b hb => h1 b (List.mem_cons_of_mem a hb))]

/-- The reader's `Path(saved).name` recovers the file name from a rendered
path whose name component contains no separator. -/
theorem Pipeline.path_name_render (p : PathS) (h : '/' ∉ p.name.data) :
    Pipeline.path_name (PathS.render p) = p.name := by
  unfold Pipeline.path_name PathS.render
  have hdata : (p.dir ++ "/" ++ p.name).data = (p.dir.data ++ ['/']) ++ p.name.data := by
    rw [String.data_append, String.data_append]
  have h1 : ∀ a ∈ p.name.data.reverse, (fun c => decide (c ≠ '/')) a = true := by
    intro a ha
    rw [List.mem_reverse] at ha
    simp only [ne_eq, decide_eq_true_eq]
    exact fun hc => h (hc ▸ ha)
  have hstop := takeWhile_append_stop (fun c => decide (c ≠ '/'))
    p.name.data.reverse '/' p.dir.data.reverse h1 (by simp)
  have hrev : (p.dir.data ++ ['/']).reverse = '/' :: p.dir.data.reverse := by
    rw [List.reverse_append]
    rfl
  rw [hdata, List.reverse_append, hrev, hstop, List.reverse_reverse]

/-- C8 counterexample: the persisted snapshot stores `str(job.video_path)`,
the full path string, not the bare file name, contradicting the claim's
"path fields stored as filenames only". -/
theorem C8_persistence_counterexample :
    (Pipeline.save_job_state Fixtures.persistJob).video_path =
      some "storage/jobs/ab12cd34/input.mp4" ∧
    (Pipeline.save_job_state Fixtures.persistJob).video_path ≠
      some "input.mp4" := by
  exact ⟨by decide, by decide⟩

/-- C8 amended: the snapshot stores path fields as full path strings; the
reader keeps only each stored path's final name component and reconstructs
it against the local job directory, so restoring the snapshot of a job whose
paths are in their standard job-directory locations (video in the job dir,
frames in `job_dir/frames`, names free of separators) reproduces the job on
every serialized field: `job_id`, `video_path`, `frames_dir`, `stage`,
`progress`, `video_info`, `gcs_url`, `frame_paths` and `error`. -/
theorem C8_persistence_amended (base jid vname : String)
    (job : Pipeline.JobState)
    (hvp : job.video_path = some ⟨Pipeline.get_job_dir base jid, vname⟩)
    (hvn : '/' ∉ vname.data)
    (hfd : job.frames_dir = some ⟨Pipeline.get_job_dir base jid, "frames"⟩)
    (hframes : ∀ fp ∈ job.frame_paths,
      fp.dir = Pipeline.get_job_dir base jid ++ "/frames" ∧ '/' ∉ fp.name.data) :
    (Pipeline.save_job_state job).video_path =
      some (Pipeline.get_job_dir base jid ++ "/" ++ vname) ∧
    (Pipeline.restore_job_state base jid (Pipeline.save_job_state job)).job_id =
      job.job_id ∧
    (Pipeline.restore_job_state base jid (Pipeline.save_job_state job)).video_path =
      job.video_path ∧
    (Pipeline.restore_job_state base jid (Pipeline.save_job_state job)).frames_dir =
      job.frames_dir ∧
    (Pipeline.restore_job_state base jid (Pipeline.save_job_state job)).stage =
      job.stage ∧
    (Pipeline.restore_job_state base jid (Pipeline.save_job_state job)).progress =
      job.progress ∧
    (Pipeline.restore_job_state base jid (Pipeline.save_job_state job)).video_info =
      job.video_info ∧
    (Pipeline.restore_job_state base jid (Pipeline.save_job_state job)).gcs_url =
      job.gcs_url ∧
    (Pipeline.restore_job_state base jid (Pipeline.save_job_state job)).frame_paths =
      job.frame_paths ∧
    (Pipeline.restore_job_state base jid (Pipeline.save_job_state job)).error =
      job.error := by
  refine ⟨?_, rfl, ?_, ?_, rfl, rfl, rfl, rfl, ?_, rfl⟩
  · show job.video_path.map PathS.render = _
    rw [hvp]
    rfl
  · show (job.video_path.map PathS.render).map _ = job.video_path
    rw [hvp]
    show some (⟨Pipeline.get_job_dir base jid,
        Pipeline.path_name
          (PathS.render ⟨Pipeline.get_job_dir base jid, vname⟩)⟩ : PathS) =
      some ⟨Pipeline.get_job_dir base jid, vname⟩
    rw [Pipeline.path_name_render ⟨Pipeline.get_job_dir base jid, vname⟩ hvn]
  · rw [hfd]
    rfl
  · show (job.frame_paths.map PathS.render).map _ = job.frame_paths
    rw [List.map_map]
    conv_rhs => rw [← List.map_id job.frame_paths]
    apply List.map_eq_map_iff.mpr
    intro fp hfp
    obtain ⟨hdir, hsl⟩ := hframes fp hfp
    show (⟨Pipeline.get_job_dir base jid ++ "/frames",
      Pipeline.path_name (PathS.render fp)⟩ : PathS) = fp
    rw [Pipeline.path_name_render fp hsl, ← hdir]

/-- C8 witness: the amended round trip on a concrete completed job with two
extracted frames. -/
theorem C8_persistence_witness :
    (Pipeline.save_job_state Fixtures.persistJob).video_path =
      some (Pipeline.get_job_dir "storage/jobs" "ab12cd34" ++ "/" ++ "input.mp4") ∧
    (Pipeline.restore_job_state "storage/jobs" "ab12cd34"
        (Pipeline.save_job_state Fixtures.persistJob)).job_id =
      Fixtures.persistJob.job_id ∧
    (Pipeline.restore_job_state "storage/jobs" "ab12cd34"
        (Pipeline.save_job_state Fixtures.persistJob)).video_path =
      Fixtures.persistJob.video_path ∧
    (Pipeline.restore_job_state "storage/jobs" "ab12cd34"
        (Pipeline.save_job_state Fixtures.persistJob)).frames_dir =
      Fixtures.persistJob.frames_dir ∧
    (Pipeline.restore_job_state "storage/jobs" "ab12cd34"
        (Pipeline.save_job_state Fixtures.persistJob)).stage =
      Fixtures.persistJob.stage ∧
    (Pipeline.restore_job_state "storage/jobs" "ab12cd34"
        (Pipeline.save_job_state Fixtures.persistJob)).progress =
      Fixtures.persistJob.progress ∧
    (Pipeline.restore_job_state "storage/jobs" "ab12cd34"
        (Pipeline.save_job_state Fixtures.persistJob)).video_info =
      Fixtures.persistJob.video_info ∧
    (Pipeline.restore_job_state "storage/jobs" "ab12cd34"
        (Pipeline.save_job_state Fixtures.persistJob)).gcs_url =
      Fixtures.persistJob.gcs_url ∧
    (Pipeline.restore_job_state "storage/jobs" "ab12cd34"
        (Pipeline.save_job_state Fixtures.persistJob)).frame_paths =
      Fixtures.persistJob.frame_paths ∧
    (Pipeline.restore_job_state "storage/jobs" "ab12cd34"
        (Pipeline.save_job_state Fixtures.persistJob)).error =
      Fixtures.persistJob.error :=
  C8_persistence_amended "storage/jobs" "ab12cd34" "input.mp4" Fixtures.persistJob
    (by decide) (by decide) (by decide) (by decide)

/-- C9: `apply_dubs_with_clone` deletes every voice id it created at the TTS
provider on every control path — success, empty-match early return, and all
failure paths (analysis, clustering, TTS, mixing) — thanks to the `finally`
block; a failure before the clone exists creates nothing.  Hence zero cloned
voices attributable to the job remain (the theorem quantifies over every
outcome of the external steps). -/
theorem C9_voice_clone_cleanup (o : Dubber.CloneOracle) (b : Bool) :
    (Dubber.apply_dubs_with_clone_run o b).deleted_voices =
      (Dubber.apply_dubs_with_clone_run o b).created_voices := by
  unfold Dubber.apply_dubs_with_clone_run
  repeat' split
  all_goals rfl

namespace Dubber

theorem insertByStartP_mem {m x : PyMatch} {l : List PyMatch}
    (h : x ∈ insertByStartP m l) : x = m ∨ x ∈ l := by
  induction l with
  | nil => simpa [insertByStartP] using h
  | cons n ns ih =>
      unfold insertByStartP at h
      by_cases hle : m.start_time ≤ n.start_time
      · rw [if_pos hle] at h
        simpa using h
      · rw [if_neg hle] at h
        rcases List.mem_cons.mp h with rfl | h2
        · right; exact List.mem_cons_self _ _
        · rcases ih h2 with h3 | h3
          · left; exact h3
          · right; exact List.mem_cons_of_mem _ h3

theorem sortByStartP_mem {x : PyMatch} {l : List PyMatch}
    (h : x ∈ sortByStartP l) : x ∈ l := by
  induction l with
  | nil => simp [sortByStartP] at h
  | cons m ms ih =>
      unfold sortByStartP at h
      rcases insertByStartP_mem h with rfl | h2
      · exact List.mem_cons_self _ _
      · exact List.mem_cons_of_mem _ (ih h2)

theorem insertByStartP_length (m : PyMatch) (l : List PyMatch) :
    (insertByStartP m l).length = l.length + 1 := by
  induction l with
  | nil => rfl
  | cons n ns ih =>
      by_cases h : m.start_time ≤ n.start_time
      · simp [insertByStartP, if_pos h]
      · simp [insertByStartP, if_neg h, ih]

theorem sortByStartP_length (l : List PyMatch) :
    (sortByStartP l).length = l.length := by
  induction l with
  | nil => rfl
  | cons m ms ih => simp [sortByStartP, insertByStartP_length, ih]

end Dubber

/-- C10: `cluster_matches` begins by reading `sorted_matches[0].speaker_id`,
but the analyzer's `ProfanityMatch` dataclass defines no `speaker_id`
attribute, so for every non-empty analyzer-produced match list clustering
raises `AttributeError` and the dub flow fails before a single TTS
(`generate_speech`) request is issued. -/
theorem C10_cluster_attribute_error (ms : List AudioAnalyzer.ProfanityMatch)
    (h : ms ≠ []) :
    Dubber.cluster_matches (ms.map Dubber.ofProfanityMatch) 1 =
      .error "AttributeError: ProfanityMatch object has no attribute speaker_id" ∧
    (Dubber.apply_dubs_direct_run (ms.map Dubber.ofProfanityMatch)).2 = 0 ∧
    (Dubber.apply_dubs_direct_run (ms.map Dubber.ofProfanityMatch)).1 =
      .error "AttributeError: ProfanityMatch object has no attribute speaker_id" := by
  have hlen : (Dubber.sortByStartP (ms.map Dubber.ofProfanityMatch)).length =
      (ms.map Dubber.ofProfanityMatch).length :=
    Dubber.sortByStartP_length _
  have hcluster : Dubber.cluster_matches (ms.map Dubber.ofProfanityMatch) 1 =
      .error "AttributeError: ProfanityMatch object has no attribute speaker_id" := by
    cases hs : Dubber.sortByStartP (ms.map Dubber.ofProfanityMatch) with
    | nil =>
        exfalso
        rw [hs] at hlen
        simp only [List.length_nil, List.length_map] at hlen
        exact h (List.length_eq_zero.mp hlen.symm)
    | cons m rest =>
        have hm : m ∈ ms.map Dubber.ofProfanityMatch :=
          Dubber.sortByStartP_mem (by rw [hs]; exact List.mem_cons_self m rest)
        obtain ⟨y, _, rfl⟩ := List.mem_map.mp hm
        unfold Dubber.cluster_matches
        rw [hs]
        rfl
  have hnonempty : ¬ (ms.map Dubber.ofProfanityMatch).isEmpty = true := by
    cases ms with
    | nil => exact absurd rfl h
    | cons a l => simp [List.isEmpty]
  refine ⟨hcluster, ?_, ?_⟩ <;>
    · unfold Dubber.apply_dubs_direct_run
      rw [if_neg hnonempty, hcluster]

/-- C10 witness: the single analyzer match `damn` at `[1.2, 1.5]` already
makes clustering raise and keeps the TTS request count at zero. -/
theorem C10_cluster_attribute_error_witness :
    Dubber.cluster_matches ([Fixtures.beepMatch].map Dubber.ofProfanityMatch) 1 =
      .error "AttributeError: ProfanityMatch object has no attribute speaker_id" ∧
    (Dubber.apply_dubs_direct_run
      ([Fixtures.beepMatch].map Dubber.ofProfanityMatch)).2 = 0 ∧
    (Dubber.apply_dubs_direct_run ([Fixtures.beepMatch].map Dubber.ofProfanityMatch)).1 =
      .error "AttributeError: ProfanityMatch object has no attribute speaker_id" :=
  C10_cluster_attribute_error [Fixtures.beepMatch] (List.cons_ne_nil _ _)

end VidMod
